import Mathlib

/-!
Verification of the IMAP mailbox reconciliation and bulk-cleanup subsystem
of the email-ai-agent backend (src/services/gmailService.js, src/models/Email.js,
and the gmail routes module).

The JavaScript source is shallowly embedded: the per-message reconciliation
loop of `fetchGmailEmails` and the category/folder recursion of
`deleteGmailEmails` become pure Lean functions over explicit state; the
event-driven promise executors become enumerations of their terminal
control-flow paths with per-path transcriptions of what each handler does.
-/

/-! ## Data model (src/models/Email.js) -/

/-- Lifecycle status of a stored email; `emailSchema.status.enum` in
src/models/Email.js. -/
inductive EmailStatus
  | pending
  | processing
  | replied
  | failed
  | ignored
deriving DecidableEq, Repr

/-- A persisted email record, the fields of `emailSchema` that
`fetchGmailEmails` writes (src/models/Email.js / gmailService.js lines
307-317).  `userId` is the owner reference; `messageId` the globally unique
message identifier. -/
structure StoredEmail where
  userId : Nat
  fromAddr : String
  toAddr : String
  subject : String
  body : String
  messageId : String
  inReplyTo : Option String
  status : EmailStatus
  receivedAt : Nat
deriving DecidableEq, Repr

/-- The fields of a `mailparser` parse result that `fetchGmailEmails` reads:
`from?.text`, `to?.text`, `subject`, `text`, `html`, `messageId`,
`inReplyTo`, `date`.  Optional fields model JavaScript `undefined`;
the model assumes the message carries a message identifier (the
deduplication claims are about identified messages). -/
structure ParsedEmail where
  fromText : Option String
  toText : Option String
  subject : Option String
  textBody : Option String
  htmlBody : Option String
  messageId : String
  inReplyTo : Option String
  date : Option Nat
deriving DecidableEq, Repr

/-- JavaScript `a || b` for an optional string `a`: an absent or empty
string is falsy and falls through to the default. -/
def jsOrS : Option String → String → String
  | some s, b => if s = "" then b else s
  | none, b => b

/-! ## Fetch-and-reconcile pipeline (fetchGmailEmails, lines 206-428) -/

/-- `new Email({...})` as constructed at gmailService.js lines 307-317:
`from: parsed.from?.text || ''`, `subject: parsed.subject || '(No Subject)'`,
`body: parsed.text || parsed.html || ''`, `status: 'pending'`,
`receivedAt: parsed.date || new Date()` (`now` stands for `new Date()`). -/
def mkNewEmail (userId now : Nat) (p : ParsedEmail) : StoredEmail :=
  { userId := userId
    fromAddr := jsOrS p.fromText ""
    toAddr := jsOrS p.toText ""
    subject := jsOrS p.subject "(No Subject)"
    body := jsOrS p.textBody (jsOrS p.htmlBody "")
    messageId := p.messageId
    inReplyTo := p.inReplyTo
    status := EmailStatus.pending
    receivedAt := p.date.getD now }

/-- `Email.findOne({ userId, messageId })` against the local store, modelled
as a list of records (gmailService.js lines 300-303). -/
def findExisting (store : List StoredEmail) (userId : Nat) (mid : String) :
    Option StoredEmail :=
  store.find? (fun e => e.userId == userId && e.messageId == mid)

/-- One message of the batch (gmailService.js lines 291-330).  The state is
`(store, emails)`: the local record store and the accumulated `emails`
array of newly saved records.  A parse error (`pm = none`) is logged and
skipped; a record whose `(userId, messageId)` pair already exists is
skipped; otherwise the new record is saved and pushed onto `emails`. -/
def reconcileStep (userId now : Nat)
    (st : List StoredEmail × List StoredEmail) (pm : Option ParsedEmail) :
    List StoredEmail × List StoredEmail :=
  match pm with
  | none => st
  | some p =>
    match findExisting st.1 userId p.messageId with
    | some _ => st
    | none =>
      let ne := mkNewEmail userId now p
      (st.1 ++ [ne], st.2 ++ [ne])

/-- JavaScript `results.slice(-limit)` (gmailService.js line 279).  For
`limit > 0` this is the suffix of length `limit` (the whole list when
`limit` exceeds the length); `slice(-0)` is `slice(0)`, the whole list. -/
def jsSliceNeg (results : List Nat) (limit : Nat) : List Nat :=
  if limit = 0 then results else results.drop (results.length - limit)

/-- The sequence numbers the fetch pipeline actually fetches: an empty
search result returns early (lines 269-274), otherwise
`results.slice(-limit)` is fetched (line 279). -/
def processedSeqnos (results : List Nat) (limit : Nat) : List Nat :=
  if results.isEmpty then [] else jsSliceNeg results limit

/-- The reconciliation core of `fetchGmailEmails`: starting from the store
`store0` and an empty `emails` array, each fetched message (parsed via
`parseOf`, `none` = parse failure) is reconciled in arrival order.
Returns the final store and the list of newly stored messages that the
promise resolves with. -/
def fetchGmailCore (userId now : Nat) (store0 : List StoredEmail)
    (results : List Nat) (limit : Nat) (parseOf : Nat → Option ParsedEmail) :
    List StoredEmail × List StoredEmail :=
  ((processedSeqnos results limit).map parseOf).foldl
    (reconcileStep userId now) (store0, [])

/-- The message identifiers encountered (successfully parsed) in a batch. -/
def encounteredIds (results : List Nat) (limit : Nat)
    (parseOf : Nat → Option ParsedEmail) : List String :=
  (processedSeqnos results limit).filterMap
    (fun n => (parseOf n).map (fun p => p.messageId))

/-- A record with owner `u` and message identifier `m` is present. -/
def hasPairB (l : List StoredEmail) (u : Nat) (m : String) : Bool :=
  l.any (fun e => e.userId == u && e.messageId == m)

/-- Number of records with owner `u` and message identifier `m`. -/
def countPair (l : List StoredEmail) (u : Nat) (m : String) : Nat :=
  (l.filter (fun e => e.userId == u && e.messageId == m)).length

/-- The store invariant of the spec: no two records share the
(owner, message identifier) pair. -/
def pairUnique (l : List StoredEmail) : Prop :=
  l.Pairwise (fun a b => ¬(a.userId = b.userId ∧ a.messageId = b.messageId))

/-! ## Bulk cleanup orchestrator (deleteGmailEmails, lines 431-737) -/

/-- One entry of `categoryMap` (gmailService.js lines 440-470): candidate
physical folders, an optional Gmail label, and an optional FROM-substring
search rule. -/
structure CategoryConfig where
  folders : List String
  label : Option String
  searchFrom : Option String
deriving DecidableEq, Repr

/-- The static `categoryMap` of gmailService.js lines 440-470. -/
def categoryMap : String → Option CategoryConfig
  | "promotional" =>
      some { folders := ["[Gmail]/Promotions", "Promotions"],
             label := some "Promotions", searchFrom := none }
  | "social" =>
      some { folders := ["[Gmail]/Social", "Social"],
             label := some "Social", searchFrom := none }
  | "updates" =>
      some { folders := ["[Gmail]/Updates", "Updates"],
             label := some "Updates", searchFrom := none }
  | "purchases" =>
      some { folders := ["[Gmail]/Purchases", "Purchases"],
             label := some "Purchases", searchFrom := none }
  | "spam" =>
      some { folders := ["[Gmail]/Spam", "Spam", "Junk"],
             label := none, searchFrom := none }
  | "trash" =>
      some { folders := ["[Gmail]/Trash", "Trash", "[Gmail]/Bin"],
             label := none, searchFrom := none }
  | "noreply" =>
      some { folders := ["INBOX"], label := none, searchFrom := some "noreply" }
  | _ => none

/-- The live mailbox listing returned by `imap.getBoxes`, as far as
`mailboxExists` inspects it: the top-level box names and the names of the
children of the `[Gmail]` box (`boxes['[Gmail]'].children`); an absent or
childless `[Gmail]` box is the empty child list. -/
structure Boxes where
  top : List String
  gmailChildren : List String
deriving DecidableEq, Repr

/-- `mailboxExists` (gmailService.js lines 551-559): a top-level box of
that name, or, for a `[Gmail]/`-prefixed name, a child of that name under
the `[Gmail]` box. -/
def mailboxExists (boxes : Boxes) (name : String) : Bool :=
  boxes.top.contains name ||
    (name.startsWith "[Gmail]/" && boxes.top.contains "[Gmail]" &&
      boxes.gmailChildren.contains (name.drop ("[Gmail]/".length)))

/-- One entry of `foldersToProcess` (gmailService.js lines 563-607). -/
structure FolderSpec where
  folder : String
  useLabel : Bool
  labelName : Option String
  searchFrom : Option String
deriving DecidableEq, Repr

/-- Resolution of a category config into `foldersToProcess`
(gmailService.js lines 561-607): a label category always contributes
INBOX-with-label plus the first existing candidate folder; a
FROM-substring category and a plain category contribute the first
existing candidate folder only. -/
def resolveFolders (boxes : Boxes) (cfg : CategoryConfig) : List FolderSpec :=
  match cfg.label with
  | some lbl =>
    { folder := "INBOX", useLabel := true, labelName := some lbl,
      searchFrom := none } ::
      (match cfg.folders.find? (fun f => mailboxExists boxes f) with
       | some f =>
           [{ folder := f, useLabel := false, labelName := none,
              searchFrom := none }]
       | none => [])
  | none =>
    match cfg.searchFrom with
    | some sf =>
      match cfg.folders.find? (fun f => mailboxExists boxes f) with
      | some f =>
          [{ folder := f, useLabel := false, labelName := none,
             searchFrom := some sf }]
      | none => []
    | none =>
      match cfg.folders.find? (fun f => mailboxExists boxes f) with
      | some f =>
          [{ folder := f, useLabel := false, labelName := none,
             searchFrom := none }]
      | none => []

/-- The resolved folder list for a requested category name: an unknown
category resolves to no folders. -/
def resolvedFoldersFor (boxes : Boxes) (c : String) : List FolderSpec :=
  match categoryMap c with
  | none => []
  | some cfg => resolveFolders boxes cfg

/-- IMAP search criteria built per folder (gmailService.js lines 650-659). -/
inductive SearchCriteria
  | all
  | gmLabels (label : String)
  | fromAddr (s : String)
deriving DecidableEq, Repr

/-- `searchCriteria` construction (gmailService.js lines 650-659):
`[['X-GM-LABELS', labelName]]` when `useLabel && labelName`, else
`[['FROM', searchFrom]]` when `searchFrom`, else `['ALL']`. -/
def buildSearchCriteria (fs : FolderSpec) : SearchCriteria :=
  match fs.useLabel, fs.labelName with
  | true, some lbl => SearchCriteria.gmLabels lbl
  | _, _ =>
    match fs.searchFrom with
    | some sf => SearchCriteria.fromAddr sf
    | none => SearchCriteria.all

/-- The server-side outcome of processing one folder: result of
`openBox` (`some total` or error), of `search` (`some seqnos` or error),
and success of `addFlags` and `expunge`. -/
structure FolderOutcome where
  openResult : Option Nat
  searchResult : Option (List Nat)
  addFlagsOk : Bool
  expungeOk : Bool
deriving DecidableEq, Repr

/-- The environment: what the IMAP server answers for a folder name and a
search criteria.  (`openResult` does not depend on the criteria in the
code; the environment is simply free to ignore that argument.) -/
def ImapWorld := String → SearchCriteria → FolderOutcome

/-- `processFolders` body for a single folder (gmailService.js lines
633-704): an open error, an empty folder, a search error, an empty search
result, an `addFlags` error or an `expunge` error all contribute 0; only
after a successful mark **and** a successful expunge is
`results.length` credited. -/
def processFolder (w : ImapWorld) (fs : FolderSpec) : Nat :=
  let o := w fs.folder (buildSearchCriteria fs)
  match o.openResult with
  | none => 0
  | some total =>
    if total = 0 then 0
    else
      match o.searchResult with
      | none => 0
      | some results =>
        if results.isEmpty then 0
        else if o.addFlagsOk = false then 0
        else if o.expungeOk = false then 0
        else results.length

/-- `categoryTotalDeleted` accumulated over all resolved folders of one
category (gmailService.js lines 617-708); an unknown category or one with
no resolved folder gets 0 (lines 539-545 and 609-615). -/
def categoryTally (w : ImapWorld) (boxes : Boxes) (c : String) : Nat :=
  ((resolvedFoldersFor boxes c).map (processFolder w)).sum

/-- JavaScript object assignment `m[k] = v`: overwrite in place when the
key exists, append otherwise. -/
def setKey : List (String × Nat) → String → Nat → List (String × Nat)
  | [], k, v => [(k, v)]
  | p :: rest, k, v =>
    if p.1 = k then (k, v) :: rest else p :: setKey rest k v

/-- JavaScript object read `m[k]`. -/
def getKey : List (String × Nat) → String → Option Nat
  | [], _ => none
  | p :: rest, k => if p.1 = k then some p.2 else getKey rest k

/-- The `processCategory` recursion (gmailService.js lines 529-712)
accumulating `deletedCounts[category] = categoryTotalDeleted` category by
category, starting from the object `m`. -/
def tallyFold (w : ImapWorld) (boxes : Boxes) (m : List (String × Nat))
    (cats : List String) : List (String × Nat) :=
  cats.foldl (fun m c => setKey m c (categoryTally w boxes c)) m

/-- The `deletedCounts` object that `deleteGmailEmails` resolves with once
every requested category has been processed (lines 722-728). -/
def deleteGmailCore (w : ImapWorld) (boxes : Boxes) (cats : List String) :
    List (String × Nat) :=
  tallyFold w boxes [] cats

/-- Default category list of the cleanup route
(src routes, `router.delete('/cleanup')`). -/
def defaultCleanupCategories : List String :=
  ["promotional", "social", "updates", "purchases", "spam", "trash", "noreply"]

/-- `totalDeleted = Object.values(deletedCounts).reduce((sum, c) => sum + c, 0)`
in the cleanup route. -/
def totalDeleted (counts : List (String × Nat)) : Nat :=
  (counts.map Prod.snd).sum

/-- The cleanup route response body (deleted counts plus convenience
total), for a request that supplied `categories` or fell back to the
default list. -/
structure CleanupResponse where
  deletedCounts : List (String × Nat)
  total : Nat
deriving DecidableEq, Repr

/-- `router.delete('/cleanup')`: run the cleanup over the requested (or
default) categories and report the tally and its sum. -/
def cleanupRoute (w : ImapWorld) (boxes : Boxes)
    (categories : Option (List String)) : CleanupResponse :=
  let cats := categories.getD defaultCleanupCategories
  let dc := deleteGmailCore w boxes cats
  { deletedCounts := dc, total := totalDeleted dc }

/-! ## Promise lifecycle of the two operations

The promise executors of `fetchGmailEmails` (lines 234-402) and
`deleteGmailEmails` (lines 492-732) are event driven.  Each terminal
control-flow path of an executor is enumerated below, and three
per-path observations are transcribed from the handlers: whether and how
the promise settles, how many times the handler code invokes
`imap.end()` before the promise settles, and the rejection message when
the handler constructs one itself (as opposed to forwarding a server
error). -/

/-- How a promise settles. -/
inductive SettleKind
  | resolved
  | rejected
deriving DecidableEq, Repr

/-- Terminal control-flow paths of the `fetchGmailEmails` promise
executor (gmailService.js lines 234-402). -/
inductive FetchPath
  /-- the 15 s `connectionTimeout` (line 394) fires before `ready`:
  `imap.end(); reject(...)` -/
  | connTimeoutFires
  /-- `ready`, then `openBox` fails (lines 251-256): clear timer;
  `imap.end(); reject(err)` -/
  | openBoxError
  /-- `search` fails (lines 262-267): clear timer; `imap.end(); reject(err)` -/
  | searchError
  /-- `search` returns no matches (lines 269-274): clear timer;
  `imap.end(); resolve([])` -/
  | searchEmpty
  /-- the fetch stream errors (lines 338-343): clear timer;
  `imap.end(); reject(err)` -/
  | fetchStreamError
  /-- the fetch stream ends (lines 345-354): `fetchCompleted = true`,
  delayed `imap.end()`; the `end` event then resolves with the
  accumulated emails (lines 385-391) -/
  | fetchCompleted
  /-- the 30 s `operationTimeout` (lines 240-244) fires mid-operation:
  `imap.end(); reject(...)` -/
  | operationTimeoutFires
  /-- the connection emits `error` (lines 359-383): clear both timers;
  `reject(...)` — `imap.end()` is **not** invoked on this path -/
  | imapError
  /-- the connection emits `end` before `ready`: the `end` handler clears
  the operation timer and does not settle (`fetchCompleted` is false);
  the still-armed `connectionTimeout` later fires: `imap.end(); reject` -/
  | endBeforeReady
  /-- the connection emits `end` after `ready` but before the fetch
  completed: the `end` handler clears the operation timer and, since
  `fetchCompleted` is false, never settles; no timer remains armed -/
  | endAfterReadyIncomplete
deriving DecidableEq, Repr

/-- Settlement of the fetch promise along each path (transcribed from
the handlers cited on each constructor). -/
def fetchSettle : FetchPath → Option SettleKind
  | FetchPath.searchEmpty => some SettleKind.resolved
  | FetchPath.fetchCompleted => some SettleKind.resolved
  | FetchPath.endAfterReadyIncomplete => none
  | _ => some SettleKind.rejected

/-- Number of `imap.end()` invocations the fetch executor performs before
the promise settles on that path (total invocations on a path that never
settles). -/
def fetchEndCallsBeforeSettle : FetchPath → Nat
  | FetchPath.imapError => 0
  | FetchPath.endAfterReadyIncomplete => 0
  | _ => 1

/-- The rejection message the fetch executor itself constructs on its
timer paths (lines 243 and 397); `none` on paths that forward a server
error or do not reject. -/
def fetchRejectMessage : FetchPath → Option String
  | FetchPath.operationTimeoutFires => some "IMAP operation timeout after 30 seconds"
  | FetchPath.connTimeoutFires => some "Connection timeout - Gmail server not responding"
  | _ => none

/-- Terminal control-flow paths of the `deleteGmailEmails` promise
executor (gmailService.js lines 492-732). -/
inductive DeletePath
  /-- `getBoxes` fails (lines 507-513): clear timer; `imap.end(); reject(err)` -/
  | getBoxesError
  /-- every requested category was processed (lines 530-533): clear
  timer; `imap.end()`; the `end` event resolves with `deletedCounts`
  (lines 722-728) -/
  | allCategoriesProcessed
  /-- the 600 s `operationTimeout` (lines 496-500) fires:
  `imap.end(); reject(...)` -/
  | operationTimeoutFires
  /-- the connection emits `error` (lines 716-720): clear timer;
  `reject(err)` — `imap.end()` is **not** invoked on this path -/
  | imapError
  /-- the connection emits `end` while `processedCategories` is still
  short of `categories.length` (lines 722-728): the handler clears the
  operation timer and never settles; no other timer exists -/
  | endIncomplete
deriving DecidableEq, Repr

/-- Settlement of the cleanup promise along each path. -/
def deleteSettle : DeletePath → Option SettleKind
  | DeletePath.allCategoriesProcessed => some SettleKind.resolved
  | DeletePath.endIncomplete => none
  | _ => some SettleKind.rejected

/-- Number of `imap.end()` invocations the cleanup executor performs
before the promise settles on that path. -/
def deleteEndCallsBeforeSettle : DeletePath → Nat
  | DeletePath.imapError => 0
  | DeletePath.endIncomplete => 0
  | _ => 1

/-- The rejection message the cleanup executor itself constructs on its
timer path (line 499). -/
def deleteRejectMessage : DeletePath → Option String
  | DeletePath.operationTimeoutFires => some "IMAP operation timeout after 600 seconds"
  | _ => none

/-! ## Timer installation (claim C8)

`fetchGmailEmails` installs a handler-level connection timer of 15 s
(line 394, cleared in the `ready` handler at line 248) and an operation
timer of 30 s (line 240).  `deleteGmailEmails` installs **only** an
operation timer of 600 s (line 496); its `ready` handler clears nothing.
Both operations additionally pass `authTimeout: 10000` and
`connTimeout: 10000` to the `Imap` constructor (lines 224-225 and
483-484). -/

/-- The timers an operation sets up: the handler-installed
`setTimeout` timers (connection-level and operation-level) and the
`Imap` constructor configuration timeouts. -/
structure TimerSetup where
  connectionTimerMs : Option Nat
  operationTimerMs : Option Nat
  configAuthTimeoutMs : Nat
  configConnTimeoutMs : Nat
deriving DecidableEq, Repr

/-- Timers of `fetchGmailEmails` (lines 224-225, 240, 394). -/
def fetchTimerSetup : TimerSetup :=
  { connectionTimerMs := some 15000, operationTimerMs := some 30000,
    configAuthTimeoutMs := 10000, configConnTimeoutMs := 10000 }

/-- Timers of `deleteGmailEmails` (lines 483-484, 496); no
handler-installed connection timer exists in this function. -/
def deleteTimerSetup : TimerSetup :=
  { connectionTimerMs := none, operationTimerMs := some 600000,
    configAuthTimeoutMs := 10000, configConnTimeoutMs := 10000 }

/-- The two operations of the exposed surface. -/
inductive MailOp
  | fetch
  | cleanup
deriving DecidableEq, Repr

/-- Timer setup per operation. -/
def opTimerSetup : MailOp → TimerSetup
  | MailOp.fetch => fetchTimerSetup
  | MailOp.cleanup => deleteTimerSetup

/-! ## Spec-side helper definitions used in theorem statements -/

/-- Override the server behaviour at one (folder, criteria) key. -/
def updateWorld (w : ImapWorld) (name : String) (crit : SearchCriteria)
    (o : FolderOutcome) : ImapWorld :=
  fun n c => if n = name ∧ c = crit then o else w n c

/-- A folder outcome in which at least one of the four phases (open,
search, mark-deleted, expunge) fails. -/
def outcomeFails (o : FolderOutcome) : Prop :=
  o.openResult = none ∨ o.searchResult = none ∨
    o.addFlagsOk = false ∨ o.expungeOk = false

/-- Concrete sample values used by the witness theorems. -/
def demoParsedA : ParsedEmail :=
  { fromText := some "alice@example.com", toText := some "me@example.com",
    subject := some "hello", textBody := some "hi", htmlBody := none,
    messageId := "mid-a", inReplyTo := none, date := some 100 }

def demoParsedB : ParsedEmail :=
  { fromText := some "bob@example.com", toText := some "me@example.com",
    subject := some "news", textBody := none, htmlBody := some "<p>x</p>",
    messageId := "mid-b", inReplyTo := none, date := none }

def demoStore : List StoredEmail := [mkNewEmail 7 0 demoParsedA]

def demoParseOf : Nat → Option ParsedEmail :=
  fun n => if n = 1 then some demoParsedA else some demoParsedB

def demoOkOutcome : FolderOutcome :=
  { openResult := some 5, searchResult := some [1, 2],
    addFlagsOk := true, expungeOk := true }

def demoFailOutcome : FolderOutcome :=
  { openResult := some 5, searchResult := some [1, 2],
    addFlagsOk := true, expungeOk := false }

def demoWorld : ImapWorld := fun _ _ => demoOkOutcome

def demoFailWorld : ImapWorld := fun _ _ => demoFailOutcome

def demoBoxes : Boxes :=
  { top := ["INBOX", "[Gmail]"], gmailChildren := ["Spam", "Trash", "Social"] }

def demoFolderSpec : FolderSpec :=
  { folder := "[Gmail]/Spam", useLabel := false, labelName := none,
    searchFrom := none }

/-! ## Lemmas about the reconciliation fold -/

/-- The records newly inserted when the batch `pms` is reconciled against
the store `store` (proof-side companion of `reconcileStep`). -/
def reconcileNew (u now : Nat) :
    List (Option ParsedEmail) → List StoredEmail → List StoredEmail
  | [], _ => []
  | pm :: pms, store =>
    match pm with
    | none => reconcileNew u now pms store
    | some p =>
      match findExisting store u p.messageId with
      | some _ => reconcileNew u now pms store
      | none =>
        mkNewEmail u now p ::
          reconcileNew u now pms (store ++ [mkNewEmail u now p])

/-- The identifiers of the successfully parsed messages of a batch. -/
def idsOf (pms : List (Option ParsedEmail)) : List String :=
  pms.filterMap (fun pm => pm.map (fun p => p.messageId))

lemma foldl_reconcile_eq (u now : Nat) :
    ∀ (pms : List (Option ParsedEmail)) (store emails : List StoredEmail),
      pms.foldl (reconcileStep u now) (store, emails) =
        (store ++ reconcileNew u now pms store,
         emails ++ reconcileNew u now pms store) := by
  intro pms
  induction pms with
  | nil => intro store emails; simp [reconcileNew]
  | cons pm pms ih =>
    intro store emails
    cases pm with
    | none => simp [reconcileNew, reconcileStep, ih]
    | some p =>
      cases hf : findExisting store u p.messageId with
      | some e => simp [reconcileNew, reconcileStep, hf, ih]
      | none => simp [reconcileNew, reconcileStep, hf, ih]

lemma findExisting_eq_none_iff (store : List StoredEmail) (u : Nat) (m : String) :
    findExisting store u m = none ↔ hasPairB store u m = false := by
  simp [findExisting, hasPairB, List.find?_eq_none, List.any_eq_true]

lemma countPair_eq_zero_iff (l : List StoredEmail) (u : Nat) (m : String) :
    countPair l u m = 0 ↔ hasPairB l u m = false := by
  simp [countPair, hasPairB, List.length_eq_zero, List.filter_eq_nil_iff,
    List.any_eq_true]

lemma hasPairB_append (l₁ l₂ : List StoredEmail) (u : Nat) (m : String) :
    hasPairB (l₁ ++ l₂) u m = (hasPairB l₁ u m || hasPairB l₂ u m) := by
  simp [hasPairB, List.any_append]

lemma hasPairB_mkNewEmail (u now : Nat) (p : ParsedEmail) (m : String) :
    hasPairB [mkNewEmail u now p] u m = (p.messageId == m) := by
  simp [hasPairB, mkNewEmail]

lemma pairPred_iff (e : StoredEmail) (u : Nat) (m : String) :
    (e.userId == u && e.messageId == m) = true ↔
      (e.userId = u ∧ e.messageId = m) := by
  simp [Bool.and_eq_true]

lemma countPair_cons (e : StoredEmail) (l : List StoredEmail) (u : Nat) (m : String) :
    countPair (e :: l) u m =
      (if e.userId = u ∧ e.messageId = m then 1 else 0) + countPair l u m := by
  simp only [countPair, List.filter_cons]
  by_cases hb : (e.userId == u && e.messageId == m) = true
  · rw [if_pos hb, if_pos ((pairPred_iff e u m).mp hb)]
    simp [Nat.add_comm]
  · rw [if_neg hb, if_neg (fun hc => hb ((pairPred_iff e u m).mpr hc))]
    simp

lemma reconcileNew_skip (u now : Nat) :
    ∀ (pms : List (Option ParsedEmail)) (store : List StoredEmail) (m : String),
      hasPairB store u m = true →
      countPair (reconcileNew u now pms store) u m = 0 := by
  intro pms
  induction pms with
  | nil => intro store m _; simp [reconcileNew, countPair]
  | cons pm pms ih =>
    intro store m hm
    cases pm with
    | none => simpa [reconcileNew] using ih store m hm
    | some p =>
      cases hf : findExisting store u p.messageId with
      | some e => simpa [reconcileNew, hf] using ih store m hm
      | none =>
        have hpid : hasPairB store u p.messageId = false :=
          (findExisting_eq_none_iff store u p.messageId).mp hf
        have hne : p.messageId ≠ m := by
          intro h; rw [h, hm] at hpid; exact Bool.noConfusion hpid
        have hstep : hasPairB (store ++ [mkNewEmail u now p]) u m = true := by
          simp [hasPairB_append, hm]
        simp only [reconcileNew, hf]
        rw [countPair_cons]
        have hcond : ¬((mkNewEmail u now p).userId = u ∧
            (mkNewEmail u now p).messageId = m) := by
          simp [mkNewEmail, hne]
        rw [if_neg hcond, Nat.zero_add]
        exact ih (store ++ [mkNewEmail u now p]) m hstep

lemma reconcileNew_le_one (u now : Nat) :
    ∀ (pms : List (Option ParsedEmail)) (store : List StoredEmail) (m : String),
      countPair (reconcileNew u now pms store) u m ≤ 1 := by
  intro pms
  induction pms with
  | nil => intro store m; simp [reconcileNew, countPair]
  | cons pm pms ih =>
    intro store m
    cases pm with
    | none => simpa [reconcileNew] using ih store m
    | some p =>
      cases hf : findExisting store u p.messageId with
      | some e => simpa [reconcileNew, hf] using ih store m
      | none =>
        simp only [reconcileNew, hf]
        rw [countPair_cons]
        by_cases hm : (mkNewEmail u now p).userId = u ∧
            (mkNewEmail u now p).messageId = m
        · have hmid : p.messageId = m := by
            simpa [mkNewEmail] using hm.2
          have hstep : hasPairB (store ++ [mkNewEmail u now p]) u m = true := by
            rw [hasPairB_append, hasPairB_mkNewEmail]
            simp [hmid]
          rw [reconcileNew_skip u now pms (store ++ [mkNewEmail u now p]) m hstep]
          simp [hm]
        · rw [if_neg hm, Nat.zero_add]
          exact ih (store ++ [mkNewEmail u now p]) m

lemma reconcileNew_adds (u now : Nat) :
    ∀ (pms : List (Option ParsedEmail)) (store : List StoredEmail) (m : String),
      m ∈ idsOf pms → hasPairB store u m = false →
      hasPairB (reconcileNew u now pms store) u m = true := by
  intro pms
  induction pms with
  | nil => intro store m hmem _; simp [idsOf] at hmem
  | cons pm pms ih =>
    intro store m hmem habs
    cases pm with
    | none =>
      simp only [idsOf, List.filterMap_cons, Option.map_none] at hmem
      simpa [reconcileNew] using ih store m hmem habs
    | some p =>
      have hmem2 : m = p.messageId ∨ m ∈ idsOf pms := by
        simpa [idsOf, List.filterMap_cons] using hmem
      cases hf : findExisting store u p.messageId with
      | some e =>
        have hpid : ¬(hasPairB store u p.messageId = false) := by
          intro hc
          rw [(findExisting_eq_none_iff store u p.messageId).mpr hc] at hf
          exact Option.noConfusion hf
        rcases hmem2 with h | h
        · exact absurd (h ▸ habs) hpid
        · simpa [reconcileNew, hf] using ih store m h habs
      | none =>
        by_cases hmid : p.messageId = m
        · simp only [reconcileNew, hf]
          simp [hasPairB, mkNewEmail, hmid]
        · have h : m ∈ idsOf pms := by
            rcases hmem2 with h | h
            · exact absurd h.symm hmid
            · exact h
          have habs2 : hasPairB (store ++ [mkNewEmail u now p]) u m = false := by
            rw [hasPairB_append, habs, hasPairB_mkNewEmail]
            simpa using hmid
          have htail := ih (store ++ [mkNewEmail u now p]) m h habs2
          simp only [reconcileNew, hf]
          simp only [hasPairB, List.any_cons] at htail ⊢
          rw [htail]
          simp

lemma hasPairB_false_forall (l : List StoredEmail) (u : Nat) (m : String)
    (h : hasPairB l u m = false) :
    ∀ e ∈ l, ¬(e.userId = u ∧ e.messageId = m) := by
  intro e he
  simp only [hasPairB] at h
  intro hc
  have : l.any (fun e => e.userId == u && e.messageId == m) = true := by
    rw [List.any_eq_true]
    exact ⟨e, he, (pairPred_iff e u m).mpr hc⟩
  rw [h] at this
  exact Bool.noConfusion this

lemma reconcileNew_fresh_of_store (u now : Nat) :
    ∀ (pms : List (Option ParsedEmail)) (store : List StoredEmail)
      (a : StoredEmail), a ∈ store →
      ∀ b ∈ reconcileNew u now pms store,
        ¬(a.userId = b.userId ∧ a.messageId = b.messageId) := by
  intro pms
  induction pms with
  | nil => intro store a _ b hb; simp [reconcileNew] at hb
  | cons pm pms ih =>
    intro store a ha b hb
    cases pm with
    | none =>
      simp only [reconcileNew] at hb
      exact ih store a ha b hb
    | some p =>
      cases hf : findExisting store u p.messageId with
      | some e =>
        simp only [reconcileNew, hf] at hb
        exact ih store a ha b hb
      | none =>
        simp only [reconcileNew, hf, List.mem_cons] at hb
        rcases hb with hb | hb
        · subst hb
          have hnone :=
            hasPairB_false_forall store u p.messageId
              ((findExisting_eq_none_iff store u p.messageId).mp hf) a ha
          simpa [mkNewEmail] using hnone
        · exact ih (store ++ [mkNewEmail u now p]) a
            (List.mem_append_left _ ha) b hb

lemma reconcileNew_pairwise (u now : Nat) :
    ∀ (pms : List (Option ParsedEmail)) (store : List StoredEmail),
      (reconcileNew u now pms store).Pairwise
        (fun a b => ¬(a.userId = b.userId ∧ a.messageId = b.messageId)) := by
  intro pms
  induction pms with
  | nil => intro store; simp [reconcileNew]
  | cons pm pms ih =>
    intro store
    cases pm with
    | none => simpa [reconcileNew] using ih store
    | some p =>
      cases hf : findExisting store u p.messageId with
      | some e => simpa [reconcileNew, hf] using ih store
      | none =>
        simp only [reconcileNew, hf]
        rw [List.pairwise_cons]
        refine ⟨?_, ih (store ++ [mkNewEmail u now p])⟩
        intro b hb
        exact reconcileNew_fresh_of_store u now pms
          (store ++ [mkNewEmail u now p]) (mkNewEmail u now p)
          (List.mem_append_right _ (List.mem_singleton_self _)) b hb

lemma idsOf_map (parseOf : Nat → Option ParsedEmail) (l : List Nat) :
    idsOf (l.map parseOf) =
      l.filterMap (fun n => (parseOf n).map (fun p => p.messageId)) := by
  simp [idsOf, List.filterMap_map]
  rfl

lemma findExisting_some_hasPair (store : List StoredEmail) (u : Nat) (m : String)
    (e : StoredEmail) (h : findExisting store u m = some e) :
    hasPairB store u m = true := by
  by_cases hb : hasPairB store u m = true
  · exact hb
  · have : findExisting store u m = none :=
      (findExisting_eq_none_iff store u m).mpr (Bool.eq_false_iff.mpr hb)
    rw [this] at h
    exact Option.noConfusion h

lemma fetchGmailCore_eq (u now : Nat) (store0 : List StoredEmail)
    (results : List Nat) (limit : Nat) (parseOf : Nat → Option ParsedEmail) :
    fetchGmailCore u now store0 results limit parseOf =
      (store0 ++
        reconcileNew u now ((processedSeqnos results limit).map parseOf) store0,
       reconcileNew u now ((processedSeqnos results limit).map parseOf) store0) := by
  rw [fetchGmailCore,
    foldl_reconcile_eq u now ((processedSeqnos results limit).map parseOf) store0 []]
  simp

/-! ## Lemmas about the cleanup tally -/

lemma getKey_setKey_self (m : List (String × Nat)) (k : String) (v : Nat) :
    getKey (setKey m k v) k = some v := by
  induction m with
  | nil => simp [setKey, getKey]
  | cons p rest ih =>
    by_cases h : p.1 = k
    · simp [setKey, getKey, h]
    · simp [setKey, getKey, h, ih]

lemma getKey_setKey_ne (m : List (String × Nat)) (k v : String) (x : Nat)
    (h : v ≠ k) : getKey (setKey m k x) v = getKey m v := by
  have hkv : ¬(k = v) := fun he => h he.symm
  induction m with
  | nil => simp [setKey, getKey, hkv]
  | cons p rest ih =>
    by_cases hp : p.1 = k
    · have hpv : ¬(p.1 = v) := fun he => h (hp ▸ he).symm
      simp [setKey, getKey, hp, hkv, hpv]
    · simp only [setKey, if_neg hp]
      by_cases hv : p.1 = v
      · simp [getKey, hv]
      · simp [getKey, hv, ih]

lemma getKey_tallyFold_not_mem (w : ImapWorld) (boxes : Boxes) :
    ∀ (cats : List String) (m : List (String × Nat)) (c : String),
      c ∉ cats → getKey (tallyFold w boxes m cats) c = getKey m c := by
  intro cats
  induction cats with
  | nil => intro m c _; simp [tallyFold]
  | cons a rest ih =>
    intro m c hc
    have hca : c ≠ a := fun he => hc (he ▸ List.mem_cons_self a rest)
    have hcr : c ∉ rest := fun he => hc (List.mem_cons_of_mem a he)
    simp only [tallyFold, List.foldl_cons]
    rw [show (rest.foldl (fun m c => setKey m c (categoryTally w boxes c))
        (setKey m a (categoryTally w boxes a))) =
      tallyFold w boxes (setKey m a (categoryTally w boxes a)) rest from rfl]
    rw [ih (setKey m a (categoryTally w boxes a)) c hcr]
    exact getKey_setKey_ne m a c (categoryTally w boxes a) hca

lemma getKey_tallyFold_mem (w : ImapWorld) (boxes : Boxes) :
    ∀ (cats : List String) (m : List (String × Nat)) (c : String),
      c ∈ cats →
      getKey (tallyFold w boxes m cats) c = some (categoryTally w boxes c) := by
  intro cats
  induction cats with
  | nil => intro m c hc; simp at hc
  | cons a rest ih =>
    intro m c hc
    simp only [tallyFold, List.foldl_cons]
    rw [show (rest.foldl (fun m c => setKey m c (categoryTally w boxes c))
        (setKey m a (categoryTally w boxes a))) =
      tallyFold w boxes (setKey m a (categoryTally w boxes a)) rest from rfl]
    by_cases hcr : c ∈ rest
    · exact ih (setKey m a (categoryTally w boxes a)) c hcr
    · have hca : c = a := by
        rcases List.mem_cons.mp hc with h | h
        · exact h
        · exact absurd h hcr
      rw [getKey_tallyFold_not_mem w boxes rest _ c hcr, hca]
      exact getKey_setKey_self m a (categoryTally w boxes a)

lemma getKey_append_none (m mm : List (String × Nat)) (k : String)
    (h : getKey m k = none) : getKey (m ++ mm) k = getKey mm k := by
  induction m with
  | nil => simp
  | cons p rest ih =>
    by_cases hp : p.1 = k
    · simp [getKey, hp] at h
    · simp only [getKey, if_neg hp] at h
      simpa [getKey, hp] using ih h

lemma setKey_not_mem (m : List (String × Nat)) (k : String) (v : Nat)
    (h : getKey m k = none) : setKey m k v = m ++ [(k, v)] := by
  induction m with
  | nil => simp [setKey]
  | cons p rest ih =>
    by_cases hp : p.1 = k
    · simp [getKey, hp] at h
    · simp only [getKey, if_neg hp] at h
      simp [setKey, hp, ih h]

lemma tallyFold_nodup (w : ImapWorld) (boxes : Boxes) :
    ∀ (cats : List String) (m : List (String × Nat)),
      (∀ c ∈ cats, getKey m c = none) → cats.Nodup →
      tallyFold w boxes m cats =
        m ++ cats.map (fun c => (c, categoryTally w boxes c)) := by
  intro cats
  induction cats with
  | nil => intro m _ _; simp [tallyFold]
  | cons a rest ih =>
    intro m hnone hnd
    have hna : a ∉ rest := (List.nodup_cons.mp hnd).1
    have hndr : rest.Nodup := (List.nodup_cons.mp hnd).2
    simp only [tallyFold, List.foldl_cons]
    rw [show (rest.foldl (fun m c => setKey m c (categoryTally w boxes c))
        (setKey m a (categoryTally w boxes a))) =
      tallyFold w boxes (setKey m a (categoryTally w boxes a)) rest from rfl]
    rw [setKey_not_mem m a (categoryTally w boxes a) (hnone a (List.mem_cons_self a rest))]
    rw [ih (m ++ [(a, categoryTally w boxes a)]) ?_ hndr]
    · simp
    · intro c hc
      rw [getKey_append_none m _ c (hnone c (List.mem_cons_of_mem a hc))]
      have hca : ¬((a, categoryTally w boxes a).1 = c) := by
        simp only []
        exact fun he => hna (he ▸ hc)
      simp [getKey, hca]

lemma deleteGmailCore_nodup (w : ImapWorld) (boxes : Boxes) (cats : List String)
    (hnd : cats.Nodup) :
    deleteGmailCore w boxes cats =
      cats.map (fun c => (c, categoryTally w boxes c)) := by
  rw [deleteGmailCore, tallyFold_nodup w boxes cats [] (by simp [getKey]) hnd]
  simp

/-! ## Lemmas about per-folder processing -/

lemma processFolder_fail (w : ImapWorld) (fs : FolderSpec)
    (h : outcomeFails (w fs.folder (buildSearchCriteria fs))) :
    processFolder w fs = 0 := by
  unfold processFolder
  rcases h with h | h | h | h <;>
    rcases ho : (w fs.folder (buildSearchCriteria fs)).openResult with _ | t <;>
    rcases hs : (w fs.folder (buildSearchCriteria fs)).searchResult with _ | rs <;>
    simp_all

lemma processFolder_success (w : ImapWorld) (fs : FolderSpec)
    (total : Nat) (results : List Nat)
    (h1 : (w fs.folder (buildSearchCriteria fs)).openResult = some total)
    (h2 : total ≠ 0)
    (h3 : (w fs.folder (buildSearchCriteria fs)).searchResult = some results)
    (h4 : results ≠ [])
    (h5 : (w fs.folder (buildSearchCriteria fs)).addFlagsOk = true)
    (h6 : (w fs.folder (buildSearchCriteria fs)).expungeOk = true) :
    processFolder w fs = results.length := by
  unfold processFolder
  simp [h1, h2, h3, h4, h5, h6]

lemma processFolder_updateWorld_ne (w : ImapWorld) (name : String)
    (crit : SearchCriteria) (o : FolderOutcome) (fs : FolderSpec)
    (h : ¬(fs.folder = name ∧ buildSearchCriteria fs = crit)) :
    processFolder (updateWorld w name crit o) fs = processFolder w fs := by
  unfold processFolder
  rw [show updateWorld w name crit o fs.folder (buildSearchCriteria fs) =
    w fs.folder (buildSearchCriteria fs) from by simp [updateWorld, h]]

lemma updateWorld_self (w : ImapWorld) (name : String)
    (crit : SearchCriteria) (o : FolderOutcome) (fs : FolderSpec)
    (h : fs.folder = name ∧ buildSearchCriteria fs = crit) :
    updateWorld w name crit o fs.folder (buildSearchCriteria fs) = o := by
  simp [updateWorld, h]

lemma categoryTally_eq_zero_of_all_zero (w : ImapWorld) (boxes : Boxes)
    (c : String) (h : ∀ fs ∈ resolvedFoldersFor boxes c, processFolder w fs = 0) :
    categoryTally w boxes c = 0 := by
  rw [categoryTally]
  apply List.sum_eq_zero
  intro x hx
  rcases List.mem_map.mp hx with ⟨fs, hfs, hval⟩
  rw [← hval]
  exact h fs hfs

/-! ## Lemmas about limit slicing -/

lemma processedSeqnos_suffix (results : List Nat) (limit : Nat)
    (h1 : 1 ≤ limit) (h2 : limit < results.length) :
    (processedSeqnos results limit).length = limit ∧
      results =
        results.take (results.length - limit) ++ processedSeqnos results limit := by
  have hne : results.isEmpty = false := by
    cases results with
    | nil => simp at h2
    | cons a l => simp
  have hl0 : limit ≠ 0 := by omega
  have heq : processedSeqnos results limit =
      results.drop (results.length - limit) := by
    simp [processedSeqnos, hne, jsSliceNeg, hl0]
  constructor
  · rw [heq, List.length_drop]
    omega
  · rw [heq, List.take_append_drop]

/-! ## Claim theorems -/

/-- Claim C1: for every fetch invocation and every message encountered in
the batch, if a record with the same (owner, message identifier) pair
already exists in the local store at the time the message is processed, no
second record is created for that pair and the message does not appear in
the returned list of newly stored messages; if no such record exists, a
new record is persisted and included in the returned list.  Stated
batch-wide: the final store is the initial store plus exactly the
returned list; an identifier already stored for the owner never appears
in the returned list; a parsed identifier not yet stored for the owner
does appear; and no identifier appears twice in the returned list. -/
theorem claimC1_fetch_dedup (u now : Nat) (store0 : List StoredEmail)
    (results : List Nat) (limit : Nat) (parseOf : Nat → Option ParsedEmail) :
    (fetchGmailCore u now store0 results limit parseOf).1
        = store0 ++ (fetchGmailCore u now store0 results limit parseOf).2
    ∧ (∀ m, hasPairB store0 u m = true →
        hasPairB (fetchGmailCore u now store0 results limit parseOf).2 u m = false)
    ∧ (∀ m, hasPairB store0 u m = false →
        m ∈ encounteredIds results limit parseOf →
        hasPairB (fetchGmailCore u now store0 results limit parseOf).2 u m = true)
    ∧ (∀ m, countPair (fetchGmailCore u now store0 results limit parseOf).2 u m ≤ 1) := by
  rw [fetchGmailCore_eq u now store0 results limit parseOf]
  refine ⟨rfl, ?_, ?_, ?_⟩
  · intro m hm
    exact (countPair_eq_zero_iff _ u m).mp (reconcileNew_skip u now _ store0 m hm)
  · intro m habs hmem
    apply reconcileNew_adds u now _ store0 m ?_ habs
    rw [idsOf_map parseOf (processedSeqnos results limit)]
    exact hmem
  · intro m
    exact reconcileNew_le_one u now _ store0 m

/-- Witness for C1 at a concrete batch: owner 7 already holds message
`mid-a`; a fetch of sequence numbers 1 and 2 (parsing to `mid-a` and
`mid-b`) returns no record for `mid-a`. -/
theorem claimC1_fetch_dedup_witness :
    hasPairB demoStore 7 "mid-a" = true ∧
      hasPairB (fetchGmailCore 7 0 demoStore [1, 2] 10 demoParseOf).2 7 "mid-a"
        = false :=
  ⟨by decide,
   (claimC1_fetch_dedup 7 0 demoStore [1, 2] 10 demoParseOf).2.1 "mid-a" (by decide)⟩

/-- Claim C9: the local store maintains, as an invariant preserved by
every fetch operation, that the (owner, message identifier) pair is
unique among stored records; and the pair is the sole deduplication key:
a message is skipped by the reconciliation step exactly when a record
with that pair is already present. -/
theorem claimC9_pair_unique_invariant (u now : Nat) (store0 : List StoredEmail)
    (results : List Nat) (limit : Nat) (parseOf : Nat → Option ParsedEmail)
    (h : pairUnique store0) :
    pairUnique (fetchGmailCore u now store0 results limit parseOf).1
    ∧ (∀ (store emails : List StoredEmail) (p : ParsedEmail),
        reconcileStep u now (store, emails) (some p) = (store, emails) ↔
          hasPairB store u p.messageId = true) := by
  constructor
  · rw [fetchGmailCore_eq u now store0 results limit parseOf]
    rw [pairUnique, List.pairwise_append]
    refine ⟨h, reconcileNew_pairwise u now _ store0, ?_⟩
    intro a ha b hb
    exact reconcileNew_fresh_of_store u now _ store0 a ha b hb
  · intro store emails p
    constructor
    · intro heq
      cases hf : findExisting store u p.messageId with
      | some e => exact findExisting_some_hasPair store u p.messageId e hf
      | none =>
        exfalso
        simp only [reconcileStep, hf] at heq
        have : store ++ [mkNewEmail u now p] = store := congrArg Prod.fst heq
        have hlen := congrArg List.length this
        simp at hlen
    · intro htrue
      cases hf : findExisting store u p.messageId with
      | some e => simp [reconcileStep, hf]
      | none =>
        rw [(findExisting_eq_none_iff store u p.messageId).mp hf] at htrue
        exact Bool.noConfusion htrue

/-- Witness for C9: a one-record store with a unique pair, run through a
concrete fetch. -/
theorem claimC9_pair_unique_invariant_witness :
    pairUnique demoStore ∧
      (pairUnique (fetchGmailCore 7 0 demoStore [1, 2] 10 demoParseOf).1
       ∧ (∀ (store emails : List StoredEmail) (p : ParsedEmail),
            reconcileStep 7 0 (store, emails) (some p) = (store, emails) ↔
              hasPairB store 7 p.messageId = true)) := by
  have hpu : pairUnique demoStore := by simp [pairUnique, demoStore]
  exact ⟨hpu, claimC9_pair_unique_invariant 7 0 demoStore [1, 2] 10 demoParseOf hpu⟩

/-- Claim C2, counterexample to the claim as stated: with a search result
of N = 1 matches and a requested limit L = 0 < N, the pipeline does not
process the last 0 elements — JavaScript `results.slice(-0)` is
`results.slice(0)`, the entire list — so the "exactly the last L
elements" property fails at L = 0. -/
theorem claimC2_counterexample :
    0 < ([7] : List Nat).length ∧
      processedSeqnos [7] 0 ≠ List.drop (([7] : List Nat).length - 0) [7] := by
  decide

/-- Claim C2 as amended: for every fetch invocation whose search yields N
matches and every requested limit L with 1 ≤ L < N, the pipeline
processes exactly the last L elements of the search result (the list
decomposes as the first N − L elements followed by the processed
suffix of length L); the L = 0 case instead processes the entire
result. -/
theorem claimC2_limit_slicing (results : List Nat) (limit : Nat)
    (h1 : 1 ≤ limit) (h2 : limit < results.length) :
    (processedSeqnos results limit).length = limit ∧
      results =
        results.take (results.length - limit) ++ processedSeqnos results limit :=
  processedSeqnos_suffix results limit h1 h2

/-- Witness for C2: limit 2 over a 3-element search result keeps exactly
the last two sequence numbers. -/
theorem claimC2_limit_slicing_witness :
    (1 ≤ 2 ∧ 2 < ([4, 5, 6] : List Nat).length) ∧
      ((processedSeqnos [4, 5, 6] 2).length = 2 ∧
        [4, 5, 6] =
          List.take (([4, 5, 6] : List Nat).length - 2) [4, 5, 6]
            ++ processedSeqnos [4, 5, 6] 2) :=
  ⟨⟨by decide, by decide⟩, claimC2_limit_slicing [4, 5, 6] 2 (by decide) (by decide)⟩

/-- Claim C3: in every cleanup run, a failure in opening, searching,
flagging or expunging a single resolved folder makes that folder
contribute 0 to its category tally, leaves every other folder's
contribution unchanged, and does not abort the run: the completed run
still carries a tally entry for every requested category. -/
theorem claimC3_folder_failure_isolated (w : ImapWorld) (boxes : Boxes)
    (cats : List String) (name : String) (crit : SearchCriteria)
    (bad : FolderOutcome) (hbad : outcomeFails bad) :
    (∀ fs : FolderSpec, fs.folder = name → buildSearchCriteria fs = crit →
        processFolder (updateWorld w name crit bad) fs = 0)
    ∧ (∀ fs : FolderSpec, ¬(fs.folder = name ∧ buildSearchCriteria fs = crit) →
        processFolder (updateWorld w name crit bad) fs = processFolder w fs)
    ∧ (∀ c ∈ cats, ∃ n,
        getKey (deleteGmailCore (updateWorld w name crit bad) boxes cats) c
          = some n) := by
  refine ⟨?_, ?_, ?_⟩
  · intro fs hn hc
    apply processFolder_fail
    rw [updateWorld_self w name crit bad fs ⟨hn, hc⟩]
    exact hbad
  · intro fs h
    exact processFolder_updateWorld_ne w name crit bad fs h
  · intro c hc
    exact ⟨categoryTally (updateWorld w name crit bad) boxes c,
      getKey_tallyFold_mem (updateWorld w name crit bad) boxes cats [] c hc⟩

/-- Witness for C3: a forced expunge failure on the INBOX/Social-label
folder zeroes that folder, leaves the Spam folder untouched, and the run
still tallies both requested categories. -/
theorem claimC3_folder_failure_isolated_witness :
    outcomeFails demoFailOutcome ∧
      ((∀ fs : FolderSpec, fs.folder = "INBOX" →
          buildSearchCriteria fs = SearchCriteria.gmLabels "Social" →
          processFolder
            (updateWorld demoWorld "INBOX" (SearchCriteria.gmLabels "Social")
              demoFailOutcome) fs = 0)
       ∧ (∀ fs : FolderSpec,
            ¬(fs.folder = "INBOX" ∧
                buildSearchCriteria fs = SearchCriteria.gmLabels "Social") →
            processFolder
              (updateWorld demoWorld "INBOX" (SearchCriteria.gmLabels "Social")
                demoFailOutcome) fs = processFolder demoWorld fs)
       ∧ (∀ c ∈ ["social", "spam"], ∃ n,
            getKey
              (deleteGmailCore
                (updateWorld demoWorld "INBOX" (SearchCriteria.gmLabels "Social")
                  demoFailOutcome) demoBoxes ["social", "spam"]) c = some n)) :=
  ⟨Or.inr (Or.inr (Or.inr rfl)),
   claimC3_folder_failure_isolated demoWorld demoBoxes ["social", "spam"]
     "INBOX" (SearchCriteria.gmLabels "Social") demoFailOutcome
     (Or.inr (Or.inr (Or.inr rfl)))⟩

/-- Claim C4: every completed cleanup run maps every requested category
name to its accumulated deletion count; a category none of whose
candidate folders resolve against the live folder tree, or all of whose
folders failed, tallies 0 rather than erroring or being omitted; and the
route reports the sum across all categories as a total. -/
theorem claimC4_tally_complete (w : ImapWorld) (boxes : Boxes)
    (cats : List String) (hnd : cats.Nodup) :
    (∀ c ∈ cats, getKey (deleteGmailCore w boxes cats) c
        = some (categoryTally w boxes c))
    ∧ (∀ c, resolvedFoldersFor boxes c = [] → categoryTally w boxes c = 0)
    ∧ (∀ c, (∀ fs ∈ resolvedFoldersFor boxes c, processFolder w fs = 0) →
        categoryTally w boxes c = 0)
    ∧ (cleanupRoute w boxes (some cats)).total
        = (cats.map (categoryTally w boxes)).sum := by
  refine ⟨?_, ?_, ?_, ?_⟩
  · intro c hc
    exact getKey_tallyFold_mem w boxes cats [] c hc
  · intro c hres
    simp [categoryTally, hres]
  · intro c hall
    exact categoryTally_eq_zero_of_all_zero w boxes c hall
  · show totalDeleted (deleteGmailCore w boxes cats) = _
    rw [deleteGmailCore_nodup w boxes cats hnd]
    simp [totalDeleted, List.map_map]
    rfl

/-- Witness for C4: a concrete run over the distinct categories
promotional and spam. -/
theorem claimC4_tally_complete_witness :
    (["promotional", "spam"] : List String).Nodup ∧
      ((∀ c ∈ ["promotional", "spam"],
          getKey (deleteGmailCore demoWorld demoBoxes ["promotional", "spam"]) c
            = some (categoryTally demoWorld demoBoxes c))
       ∧ (∀ c, resolvedFoldersFor demoBoxes c = [] →
            categoryTally demoWorld demoBoxes c = 0)
       ∧ (∀ c, (∀ fs ∈ resolvedFoldersFor demoBoxes c,
              processFolder demoWorld fs = 0) →
            categoryTally demoWorld demoBoxes c = 0)
       ∧ (cleanupRoute demoWorld demoBoxes (some ["promotional", "spam"])).total
            = (["promotional", "spam"].map (categoryTally demoWorld demoBoxes)).sum) :=
  ⟨by decide,
   claimC4_tally_complete demoWorld demoBoxes ["promotional", "spam"] (by decide)⟩

/-- Claim C10: a requested category name absent from the category-to-folder
configuration table is skipped without error: it receives a tally entry
of 0 and every requested category still receives an entry. -/
theorem claimC10_unknown_category (w : ImapWorld) (boxes : Boxes)
    (cats : List String) (c : String) (hmem : c ∈ cats)
    (hunk : categoryMap c = none) :
    getKey (deleteGmailCore w boxes cats) c = some 0
    ∧ ∀ x ∈ cats, ∃ n, getKey (deleteGmailCore w boxes cats) x = some n := by
  have h0 : categoryTally w boxes c = 0 := by
    simp [categoryTally, resolvedFoldersFor, hunk]
  constructor
  · rw [deleteGmailCore, getKey_tallyFold_mem w boxes cats [] c hmem, h0]
  · intro x hx
    exact ⟨categoryTally w boxes x, getKey_tallyFold_mem w boxes cats [] x hx⟩

/-- Witness for C10: the unknown category name `mystery` tallies 0 and the
known category `spam` in the same request still gets an entry. -/
theorem claimC10_unknown_category_witness :
    ("mystery" ∈ (["mystery", "spam"] : List String) ∧ categoryMap "mystery" = none) ∧
      (getKey (deleteGmailCore demoWorld demoBoxes ["mystery", "spam"]) "mystery"
          = some 0
       ∧ ∀ x ∈ ["mystery", "spam"], ∃ n,
          getKey (deleteGmailCore demoWorld demoBoxes ["mystery", "spam"]) x
            = some n) :=
  ⟨⟨by decide, by decide⟩,
   claimC10_unknown_category demoWorld demoBoxes ["mystery", "spam"] "mystery"
     (by decide) (by decide)⟩

/-- Claim C6: in every cleanup run and for every folder, if messages were
successfully marked with the deletion flag but the expunge fails, the
category count is not incremented for that folder; the count is
incremented by the number of matched messages only when open, search,
mark and expunge all succeed. -/
theorem claimC6_expunge_gates_count (w : ImapWorld) (fs : FolderSpec)
    (total : Nat) (results : List Nat) :
    ((w fs.folder (buildSearchCriteria fs)).addFlagsOk = true →
      (w fs.folder (buildSearchCriteria fs)).expungeOk = false →
      processFolder w fs = 0)
    ∧ ((w fs.folder (buildSearchCriteria fs)).openResult = some total →
       total ≠ 0 →
       (w fs.folder (buildSearchCriteria fs)).searchResult = some results →
       results ≠ [] →
       (w fs.folder (buildSearchCriteria fs)).addFlagsOk = true →
       (w fs.folder (buildSearchCriteria fs)).expungeOk = true →
       processFolder w fs = results.length) := by
  constructor
  · intro _ hexp
    exact processFolder_fail w fs (Or.inr (Or.inr (Or.inr hexp)))
  · intro h1 h2 h3 h4 h5 h6
    exact processFolder_success w fs total results h1 h2 h3 h4 h5 h6

/-- Witness for C6: a concrete folder where the mark succeeds, the
expunge fails, and the contribution is 0. -/
theorem claimC6_expunge_gates_count_witness :
    ((demoFailWorld demoFolderSpec.folder
        (buildSearchCriteria demoFolderSpec)).addFlagsOk = true
     ∧ (demoFailWorld demoFolderSpec.folder
        (buildSearchCriteria demoFolderSpec)).expungeOk = false)
    ∧ processFolder demoFailWorld demoFolderSpec = 0 :=
  ⟨⟨by decide, by decide⟩,
   (claimC6_expunge_gates_count demoFailWorld demoFolderSpec 0 []).1
     (by decide) (by decide)⟩

/-- Claim C5, counterexample to the claim as stated: on the session
`error` path the fetch promise settles (it rejects) although the handler
never invokes `imap.end()` — the session is not closed by the operation
before its promise settles on every exit path. -/
theorem claimC5_counterexample :
    (fetchSettle FetchPath.imapError).isSome = true ∧
      fetchEndCallsBeforeSettle FetchPath.imapError = 0 := by
  decide

/-- Claim C5 as amended: on every exit path of fetch and cleanup other
than the session `error` event, `imap.end()` is invoked exactly once
before the operation's promise settles; on the `error` path the promise
rejects without the operation's code closing the session. -/
theorem claimC5_session_close (p : FetchPath) (q : DeletePath) :
    ((fetchSettle p).isSome = true → p ≠ FetchPath.imapError →
        fetchEndCallsBeforeSettle p = 1)
    ∧ ((deleteSettle q).isSome = true → q ≠ DeletePath.imapError →
        deleteEndCallsBeforeSettle q = 1) := by
  constructor
  · intro h1 h2
    cases p
    case imapError => exact absurd rfl h2
    case endAfterReadyIncomplete => simp [fetchSettle] at h1
    all_goals rfl
  · intro h1 h2
    cases q
    case imapError => exact absurd rfl h2
    case endIncomplete => simp [deleteSettle] at h1
    all_goals rfl

/-- Witness for C5: the open-box-error exit of fetch and the
getBoxes-error exit of cleanup both settle after exactly one
`imap.end()`. -/
theorem claimC5_session_close_witness :
    ((fetchSettle FetchPath.openBoxError).isSome = true ∧
      (deleteSettle DeletePath.getBoxesError).isSome = true) ∧
      (fetchEndCallsBeforeSettle FetchPath.openBoxError = 1 ∧
        deleteEndCallsBeforeSettle DeletePath.getBoxesError = 1) :=
  ⟨⟨by decide, by decide⟩,
   ⟨(claimC5_session_close FetchPath.openBoxError DeletePath.getBoxesError).1
      (by decide) (by decide),
    (claimC5_session_close FetchPath.openBoxError DeletePath.getBoxesError).2
      (by decide) (by decide)⟩⟩

/-- Claim C7 (code bug): when the session emits its terminal `end` event
without the operation having completed — after `ready`, mid-operation —
neither the fetch promise nor the cleanup promise settles: the `end`
handlers clear the operation timer and return without resolving or
rejecting, so the operation remains pending forever instead of settling
with partial results or an error as the claim requires. -/
theorem claimC7_premature_end_hangs :
    fetchSettle FetchPath.endAfterReadyIncomplete = none ∧
      deleteSettle DeletePath.endIncomplete = none := by
  decide

/-- Claim C8, counterexample to the claim as stated: the cleanup
operation installs no handler-level connection timeout at all (its
`ready` handler has no timer to clear), so not every operation installs
both a connection-level and an operation-level timeout. -/
theorem claimC8_counterexample :
    ¬(∀ op : MailOp, ((opTimerSetup op).connectionTimerMs).isSome = true) := by
  intro h
  have hc := h MailOp.cleanup
  simp [opTimerSetup, deleteTimerSetup] at hc

/-- Claim C8 as amended: fetch installs a 15 s connection timer (cleared
on `ready`) and a 30 s operation timer; cleanup installs only a 600 s
operation timer, its connection phase being covered solely by the 10 s
`connTimeout`/`authTimeout` session configuration that both operations
pass to the IMAP constructor; whenever a handler-installed timer fires,
the session is ended exactly once and the operation rejects with a
timeout error. -/
theorem claimC8_timeouts :
    fetchTimerSetup.connectionTimerMs = some 15000
    ∧ fetchTimerSetup.operationTimerMs = some 30000
    ∧ deleteTimerSetup.connectionTimerMs = none
    ∧ deleteTimerSetup.operationTimerMs = some 600000
    ∧ (opTimerSetup MailOp.fetch).configConnTimeoutMs = 10000
    ∧ (opTimerSetup MailOp.fetch).configAuthTimeoutMs = 10000
    ∧ (opTimerSetup MailOp.cleanup).configConnTimeoutMs = 10000
    ∧ (opTimerSetup MailOp.cleanup).configAuthTimeoutMs = 10000
    ∧ (fetchSettle FetchPath.connTimeoutFires = some SettleKind.rejected
        ∧ fetchEndCallsBeforeSettle FetchPath.connTimeoutFires = 1
        ∧ fetchRejectMessage FetchPath.connTimeoutFires
            = some "Connection timeout - Gmail server not responding")
    ∧ (fetchSettle FetchPath.operationTimeoutFires = some SettleKind.rejected
        ∧ fetchEndCallsBeforeSettle FetchPath.operationTimeoutFires = 1
        ∧ fetchRejectMessage FetchPath.operationTimeoutFires
            = some "IMAP operation timeout after 30 seconds")
    ∧ (deleteSettle DeletePath.operationTimeoutFires = some SettleKind.rejected
        ∧ deleteEndCallsBeforeSettle DeletePath.operationTimeoutFires = 1
        ∧ deleteRejectMessage DeletePath.operationTimeoutFires
            = some "IMAP operation timeout after 600 seconds") := by
  refine ⟨rfl, rfl, rfl, rfl, rfl, rfl, rfl, rfl, ⟨rfl, rfl, rfl⟩,
    ⟨rfl, rfl, rfl⟩, ⟨rfl, rfl, rfl⟩⟩
